import Mathlib

/-!
Verification of `Campusil_next.py_Solution.py`, a 9-digit Luhn-style ID
validator with two forward-search interfaces (an iterator class and a
generator function).

The Python code is shallowly embedded:
  * `check_id_valid` models the function of the same name.  Python's
    `str(id_number)` for an `int` is modelled by `strDigits` /
    `strLen` / `strIsNumeric` (decimal digits, a leading `-` sign for
    negatives, `"0"` for zero, no other leading zeros).
  * Raising `ValueError` is modelled by the `Except String` error channel.
  * `IDIterator` is a one-field structure (the cursor `id_`); its
    `__next__` loop is `iterLoop`, returning the result together with the
    final cursor value (on error the cursor where the loop stopped).
  * `id_generator` builds a suspended generator state (Python runs none of
    the body at call time); `IdGenerator.next` models one `next()` pull:
    the first pull runs the argument check, then the scan loop `genLoop`.
    `StopIteration` (normal exhaustion) is modelled by `.ok none`.
-/

namespace Campusil

/-- Little-endian decimal digits of `n`, with fuel (structurally recursive
so that concrete values reduce in the kernel). -/
def digitsAuxLE : Nat → Nat → List Nat
  | 0, _ => []
  | f + 1, n => if n = 0 then [] else n % 10 :: digitsAuxLE f (n / 10)

/-- The digit characters of Python's `str(n)` for a natural `n`, as numbers,
most significant first (`str(0) = "0"`). `n` itself is always enough fuel. -/
def strDigits (n : Nat) : List Nat :=
  if n = 0 then [0] else (digitsAuxLE n n).reverse

/-- Python's `len(str(id_number))` for an `int`: digit count, plus one for the
sign of a negative number. -/
def strLen (id_number : Int) : Nat :=
  if id_number < 0 then 1 + (strDigits id_number.natAbs).length
  else (strDigits id_number.natAbs).length

/-- Python's `str(id_number).isnumeric()` for an `int`: true exactly when there
is no `-` sign, i.e. the number is nonnegative. -/
def strIsNumeric (id_number : Int) : Bool :=
  decide (0 ≤ id_number)

/-- The function `check_id_valid(id_number)` from the source.

```python
id_str = str(id_number)
if len(id_str) != 9 or not id_str.isnumeric():
    raise ValueError("Invalid ID number. Please provide a 9-digit integer.")
multiplied_list = [int(digit) * 2 if (index + 1) % 2 == 0 else int(digit)
                   for index, digit in enumerate(id_str)]
summed_list = sum([num if num < 10 else (num // 10) + (num % 10)
                   for num in multiplied_list])
return summed_list % 10 == 0
``` -/
def check_id_valid (id_number : Int) : Except String Bool :=
  if strLen id_number ≠ 9 ∨ strIsNumeric id_number = false then
    .error "Invalid ID number. Please provide a 9-digit integer."
  else
    let id_digits := strDigits id_number.natAbs
    let multiplied_list :=
      id_digits.enum.map (fun p => if (p.1 + 1) % 2 = 0 then p.2 * 2 else p.2)
    let summed_list :=
      (multiplied_list.map (fun num => if num < 10 then num else num / 10 + num % 10)).sum
    .ok (decide (summed_list % 10 = 0))

/-- The `IDIterator` class: its only state is the cursor `self.id_`. -/
structure IDIterator where
  id_ : Int
deriving DecidableEq, Repr

/-- Construction, `IDIterator.__init__`: stores the starting id unchecked (the constructor
performs no validation). -/
def IDIterator.init (id_ : Int) : IDIterator := ⟨id_⟩

end Campusil

namespace Campusil

theorem digitsAuxLE_eq_digits : ∀ f n, n ≤ f → digitsAuxLE f n = Nat.digits 10 n := by
  intro f
  induction f with
  | zero => intro n hn; interval_cases n; simp [digitsAuxLE]
  | succ f ih =>
    intro n hn
    rcases Nat.eq_zero_or_pos n with h0 | hpos
    · subst h0; simp [digitsAuxLE]
    · rw [digitsAuxLE, if_neg (Nat.pos_iff_ne_zero.mp hpos),
        Nat.digits_def' (by norm_num : (1:ℕ) < 10) hpos, ih]
      have := Nat.div_lt_self hpos (by norm_num : (1:ℕ) < 10)
      omega

theorem strDigits_eq (n : Nat) (hn : 0 < n) :
    strDigits n = (Nat.digits 10 n).reverse := by
  rw [strDigits, if_neg (Nat.pos_iff_ne_zero.mp hn), digitsAuxLE_eq_digits _ _ le_rfl]

theorem strDigits_length_eq_nine {n : Nat} :
    (strDigits n).length = 9 ↔ 100000000 ≤ n ∧ n < 1000000000 := by
  rcases Nat.eq_zero_or_pos n with h0 | hpos
  · subst h0; simp [strDigits]
  · rw [strDigits_eq n hpos, List.length_reverse]
    constructor
    · intro h
      constructor
      · have := Nat.base_pow_length_digits_le 10 n (by norm_num)
          (Nat.pos_iff_ne_zero.mp hpos)
        rw [h] at this
        omega
      · have := Nat.lt_base_pow_length_digits (b := 10) (m := n) (by norm_num)
        rw [h] at this
        exact_mod_cast this
    · rintro ⟨hlo, hhi⟩
      rw [Nat.digits_len 10 n (by norm_num) (Nat.pos_iff_ne_zero.mp hpos),
        Nat.log_eq_of_pow_le_of_lt_pow (m := 8) (by norm_num; omega) (by norm_num; omega)]

theorem strLen_eq_nine {c : Int} (hc : 0 ≤ c) :
    strLen c = 9 ↔ 100000000 ≤ c ∧ c ≤ 999999999 := by
  rw [strLen, if_neg (by omega), strDigits_length_eq_nine]
  omega

/-- Bounds forced by a non-error return of `check_id_valid`: the 9-digit
check passed, so the input lies in `[100000000, 999999999]`. -/
theorem check_id_valid_ok_bounds {c : Int} {b : Bool}
    (h : check_id_valid c = .ok b) : 100000000 ≤ c ∧ c ≤ 999999999 := by
  rw [check_id_valid] at h
  by_cases hcond : strLen c ≠ 9 ∨ strIsNumeric c = false
  · simp only [if_pos hcond] at h
    exact absurd h (by simp)
  · push_neg at hcond
    have hnum : (0:Int) ≤ c := by
      have := hcond.2
      simpa [strIsNumeric] using this
    exact (strLen_eq_nine hnum).mp hcond.1

/-- Restatement of the bounds: non-error answers of `check_id_valid` only
happen in range (used for termination of the scan loops). -/
theorem check_id_valid_ok_lt {c : Int} {b : Bool}
    (h : check_id_valid c = .ok b) : c < 1000000000 := by
  have := check_id_valid_ok_bounds h
  omega

/-- The function `check_id_valid` errors exactly when the input is not a (positive)
9-digit integer. -/
theorem check_id_valid_error_iff (c : Int) :
    (check_id_valid c = .error "Invalid ID number. Please provide a 9-digit integer.")
      ↔ (c < 100000000 ∨ 999999999 < c) := by
  constructor
  · intro h
    by_contra hcon
    push_neg at hcon
    have hnum : strIsNumeric c = true := by simp [strIsNumeric]; omega
    have hlen : strLen c = 9 := (strLen_eq_nine (by omega)).mpr ⟨hcon.1, hcon.2⟩
    rw [check_id_valid] at h
    simp [hlen, hnum] at h
  · intro h
    rw [check_id_valid, if_pos]
    by_cases hneg : c < 0
    · right; simp [strIsNumeric]; omega
    · left
      intro hlen
      have := (strLen_eq_nine (by omega)).mp hlen
      omega

/-- The loop of `IDIterator.__next__`: scan upward from the cursor; return the first
valid id and set the cursor past it; a `ValueError` escaping from
`check_id_valid` leaves the cursor at the failing candidate.

```python
while True:
    if check_id_valid(self.id_):
        current_id = self.id_
        self.id_ += 1
        return current_id
    else:
        self.id_ += 1
``` -/
def iterLoop (c : Int) : (Except String Int) × Int :=
  match h : check_id_valid c with
  | .error e => (.error e, c)
  | .ok true => (.ok c, c + 1)
  | .ok false => iterLoop (c + 1)
termination_by (1000000000 - c).toNat
decreasing_by
  have := check_id_valid_ok_lt h
  omega

/-- One call of `IDIterator.__next__` on the iterator object: the returned
value (or raised error) together with the updated object. -/
def IDIterator.next (it : IDIterator) : (Except String Int) × IDIterator :=
  ((iterLoop it.id_).1, ⟨(iterLoop it.id_).2⟩)

/-- The state of a generator object returned by `id_generator(...)`: Python
runs none of the body at call time, so the state records whether the body
has started and the current value of `id_number`.  After a `yield` of `c`
the suspended body will next run `id_number += 1` and re-test the loop
condition, which is represented by the resumption cursor `c + 1`. -/
structure IdGenerator where
  started : Bool
  id_number : Int
deriving DecidableEq, Repr

/-- Calling `id_generator(id_number)` just builds a suspended generator:
no argument check happens yet. -/
def id_generator (id_number : Int) : IdGenerator := ⟨false, id_number⟩

/-- The running loop of `id_generator`'s body, from the current value of
`id_number`: `.ok none` is the `StopIteration` of a finished generator,
`.ok (some (id, c))` yields `id` with resumption cursor `c`.

```python
while id_number <= 999999999:
    if check_id_valid(id_number):
        yield id_number
    id_number += 1
``` -/
def genLoop (c : Int) : Except String (Option (Int × Int)) :=
  if _hc : c ≤ 999999999 then
    match check_id_valid c with
    | .error e => .error e
    | .ok true => .ok (some (c, c + 1))
    | .ok false => genLoop (c + 1)
  else .ok none
termination_by (1000000000 - c).toNat
decreasing_by omega

/-- One `next()` pull on a generator object.  The first pull runs the body
from the top, i.e. the argument check

```python
if len(str(id_number)) != 9 or not isinstance(id_number, int):
    raise ValueError("Invalid starting ID number. Please provide a 9-digit integer.")
```

(the `isinstance` test is always true for an `int` argument) and then the
scan loop; later pulls resume the loop directly. -/
def IdGenerator.next (g : IdGenerator) : Except String (Option (Int × IdGenerator)) :=
  if g.started = false ∧ strLen g.id_number ≠ 9 then
    .error "Invalid starting ID number. Please provide a 9-digit integer."
  else
    match genLoop g.id_number with
    | .error e => .error e
    | .ok none => .ok none
    | .ok (some (id, c)) => .ok (some (id, ⟨true, c⟩))

/-- The ids collected by calling `IDIterator.__next__` up to `k` times,
stopping at the first raised error. -/
def advanceK : Nat → IDIterator → List Int
  | 0, _ => []
  | k + 1, it =>
    match it.next with
    | (.ok id, it2) => id :: advanceK k it2
    | (.error _, _) => []

/-- The ids collected by pulling from a generator up to `k` times, stopping
at `StopIteration` or at the first raised error. -/
def pullK : Nat → IdGenerator → List Int
  | 0, _ => []
  | k + 1, g =>
    match g.next with
    | .ok (some (id, g2)) => id :: pullK k g2
    | _ => []

/-- The loop `iterLoop` instrumented with explicit fuel: `none` means the loop was
still running after `f` candidate tests. -/
def iterLoopFuel : Nat → Int → Option ((Except String Int) × Int)
  | 0, _ => none
  | f + 1, c =>
    match check_id_valid c with
    | .error e => some (.error e, c)
    | .ok true => some (.ok c, c + 1)
    | .ok false => iterLoopFuel f (c + 1)

/-- The loop `genLoop` instrumented with explicit fuel: `none` means the loop was
still running after `f` candidate tests. -/
def genLoopFuel : Nat → Int → Option (Except String (Option (Int × Int)))
  | 0, _ => none
  | f + 1, c =>
    if c ≤ 999999999 then
      match check_id_valid c with
      | .error e => some (.error e)
      | .ok true => some (.ok (some (c, c + 1)))
      | .ok false => genLoopFuel f (c + 1)
    else some (.ok none)

/-- Modelled from the spec's words, for comparison with the code
(`check_id_valid`): "index digits 1..9 left to right. For each digit at an
even 1-based position, double it. For every resulting value (doubled or
not), if it is ≥10, replace it with the sum of its own two decimal digits.
Sum all 9 resulting values. Valid iff the sum is divisible by 10." -/
def specValid (n : Nat) : Bool :=
  let digit := fun (p : Nat) => n / 10 ^ (9 - p) % 10
  let contrib := fun (p : Nat) =>
    let v := if p % 2 = 0 then 2 * digit p else digit p
    if 10 ≤ v then v / 10 + v % 10 else v
  decide ((contrib 1 + contrib 2 + contrib 3 + contrib 4 + contrib 5
    + contrib 6 + contrib 7 + contrib 8 + contrib 9) % 10 = 0)

/-- The transform the code applies to one entry of `multiplied_list`
(`num if num < 10 else (num // 10) + (num % 10)`), named for proofs. -/
def digitTerm (num : Nat) : Nat := if num < 10 then num else num / 10 + num % 10

/-- The transform applied to a doubled digit. -/
def doubleTerm (d : Nat) : Nat := digitTerm (d * 2)

/-- The code's `summed_list` for a 9-digit number, written positionally
(proved equal to the code's list computation in `check_id_valid_eval`). -/
def luhnSum (m : Nat) : Nat :=
  digitTerm (m / 100000000 % 10) + (doubleTerm (m / 10000000 % 10) +
  (digitTerm (m / 1000000 % 10) + (doubleTerm (m / 100000 % 10) +
  (digitTerm (m / 10000 % 10) + (doubleTerm (m / 1000 % 10) +
  (digitTerm (m / 100 % 10) + (doubleTerm (m / 10 % 10) +
  (digitTerm (m % 10) + 0))))))))

theorem iterLoop_error {c : Int} {e : String} (h : check_id_valid c = .error e) :
    iterLoop c = (.error e, c) := by
  rw [iterLoop]
  split <;> simp_all

theorem iterLoop_true {c : Int} (h : check_id_valid c = .ok true) :
    iterLoop c = (.ok c, c + 1) := by
  rw [iterLoop]
  split <;> simp_all

theorem iterLoop_false {c : Int} (h : check_id_valid c = .ok false) :
    iterLoop c = iterLoop (c + 1) := by
  conv_lhs => rw [iterLoop]
  split <;> simp_all

theorem genLoop_stop {c : Int} (h : 999999999 < c) : genLoop c = .ok none := by
  rw [genLoop, dif_neg (by omega)]

theorem genLoop_error {c : Int} {e : String} (hc : c ≤ 999999999)
    (h : check_id_valid c = .error e) : genLoop c = .error e := by
  rw [genLoop, dif_pos hc]
  split <;> simp_all

theorem genLoop_true {c : Int} (hc : c ≤ 999999999)
    (h : check_id_valid c = .ok true) : genLoop c = .ok (some (c, c + 1)) := by
  rw [genLoop, dif_pos hc]
  split <;> simp_all

theorem genLoop_false {c : Int} (hc : c ≤ 999999999)
    (h : check_id_valid c = .ok false) : genLoop c = genLoop (c + 1) := by
  conv_lhs => rw [genLoop]
  rw [dif_pos hc]
  split <;> simp_all

/-- What a successful return of the iterator scan means: the returned id is
valid, it is the least valid candidate at or after the entry cursor, and the
cursor ends up one past it.  (Auxiliary, by induction bounded by `N`.) -/
theorem iterLoop_ok_aux : ∀ N : Nat, ∀ c id c2 : Int,
    (1000000000 - c).toNat ≤ N → iterLoop c = (.ok id, c2) →
    check_id_valid id = .ok true ∧ c ≤ id ∧ c2 = id + 1 ∧
      ∀ m, c ≤ m → m < id → check_id_valid m ≠ .ok true := by
  intro N
  induction N with
  | zero =>
    intro c id c2 hm h
    have herr := (check_id_valid_error_iff c).mpr (Or.inr (by omega))
    rw [iterLoop_error herr] at h
    simp at h
  | succ N ih =>
    intro c id c2 hm h
    cases hcv : check_id_valid c with
    | error e =>
      rw [iterLoop_error hcv] at h
      simp at h
    | ok b =>
      cases b with
      | true =>
        rw [iterLoop_true hcv] at h
        simp only [Prod.mk.injEq, Except.ok.injEq] at h
        obtain ⟨rfl, rfl⟩ := h
        exact ⟨hcv, le_refl _, rfl,
          fun m hm1 hm2 => absurd (lt_of_le_of_lt hm1 hm2) (lt_irrefl _)⟩
      | false =>
        rw [iterLoop_false hcv] at h
        have hb := check_id_valid_ok_bounds hcv
        have hrec := ih (c + 1) id c2 (by omega) h
        refine ⟨hrec.1, by omega, hrec.2.2.1, ?_⟩
        intro m hm1 hm2
        rcases eq_or_lt_of_le hm1 with rfl | hlt
        · rw [hcv]; simp
        · exact hrec.2.2.2 m (by omega) hm2

theorem iterLoop_ok {c id c2 : Int} (h : iterLoop c = (.ok id, c2)) :
    check_id_valid id = .ok true ∧ c ≤ id ∧ c2 = id + 1 ∧
      ∀ m, c ≤ m → m < id → check_id_valid m ≠ .ok true :=
  iterLoop_ok_aux (1000000000 - c).toNat c id c2 le_rfl h

/-- What a yield of the generator scan means (auxiliary, bounded by `N`). -/
theorem genLoop_some_aux : ∀ N : Nat, ∀ c id c2 : Int,
    (1000000000 - c).toNat ≤ N → genLoop c = .ok (some (id, c2)) →
    check_id_valid id = .ok true ∧ c ≤ id ∧ c2 = id + 1 ∧
      ∀ m, c ≤ m → m < id → check_id_valid m ≠ .ok true := by
  intro N
  induction N with
  | zero =>
    intro c id c2 hm h
    rw [genLoop_stop (by omega)] at h
    simp at h
  | succ N ih =>
    intro c id c2 hm h
    by_cases hc : c ≤ 999999999
    · cases hcv : check_id_valid c with
      | error e =>
        rw [genLoop_error hc hcv] at h
        simp at h
      | ok b =>
        cases b with
        | true =>
          rw [genLoop_true hc hcv] at h
          simp only [Except.ok.injEq, Option.some.injEq, Prod.mk.injEq] at h
          obtain ⟨rfl, rfl⟩ := h
          exact ⟨hcv, le_refl _, rfl,
            fun m hm1 hm2 => absurd (lt_of_le_of_lt hm1 hm2) (lt_irrefl _)⟩
        | false =>
          rw [genLoop_false hc hcv] at h
          have hrec := ih (c + 1) id c2 (by omega) h
          refine ⟨hrec.1, by omega, hrec.2.2.1, ?_⟩
          intro m hm1 hm2
          rcases eq_or_lt_of_le hm1 with rfl | hlt
          · rw [hcv]; simp
          · exact hrec.2.2.2 m (by omega) hm2
    · rw [genLoop_stop (by omega)] at h
      simp at h

theorem genLoop_some {c id c2 : Int} (h : genLoop c = .ok (some (id, c2))) :
    check_id_valid id = .ok true ∧ c ≤ id ∧ c2 = id + 1 ∧
      ∀ m, c ≤ m → m < id → check_id_valid m ≠ .ok true :=
  genLoop_some_aux (1000000000 - c).toNat c id c2 le_rfl h

/-- Agreement of the two scan loops from the same cursor: a yield of one is
a return of the other, and the generator's exhaustion or error is an error
of the iterator (auxiliary, bounded by `N`). -/
theorem loops_agree_aux : ∀ N : Nat, ∀ c : Int, (1000000000 - c).toNat ≤ N →
    (∀ id c2, genLoop c = .ok (some (id, c2)) → iterLoop c = (.ok id, c2)) ∧
    ((genLoop c = .ok none ∨ ∃ e, genLoop c = .error e) →
      ∃ e, (iterLoop c).1 = .error e) := by
  intro N
  induction N with
  | zero =>
    intro c hm
    have herr := (check_id_valid_error_iff c).mpr (Or.inr (by omega))
    constructor
    · intro id c2 h
      rw [genLoop_stop (by omega)] at h
      simp at h
    · intro _
      rw [iterLoop_error herr]
      exact ⟨_, rfl⟩
  | succ N ih =>
    intro c hm
    by_cases hc : c ≤ 999999999
    · cases hcv : check_id_valid c with
      | error e =>
        constructor
        · intro id c2 h
          rw [genLoop_error hc hcv] at h
          simp at h
        · intro _
          rw [iterLoop_error hcv]
          exact ⟨e, rfl⟩
      | ok b =>
        cases b with
        | true =>
          constructor
          · intro id c2 h
            rw [genLoop_true hc hcv] at h
            simp only [Except.ok.injEq, Option.some.injEq, Prod.mk.injEq] at h
            obtain ⟨rfl, rfl⟩ := h
            exact iterLoop_true hcv
          · intro habs
            rw [genLoop_true hc hcv] at habs
            rcases habs with h | ⟨e, h⟩ <;> simp at h
        | false =>
          have hb := check_id_valid_ok_bounds hcv
          have hrec := ih (c + 1) (by omega)
          rw [genLoop_false hc hcv, iterLoop_false hcv]
          exact hrec
    · constructor
      · intro id c2 h
        rw [genLoop_stop (by omega)] at h
        simp at h
      · intro _
        have herr := (check_id_valid_error_iff c).mpr (Or.inr (by omega))
        rw [iterLoop_error herr]
        exact ⟨_, rfl⟩

theorem loops_agree (c : Int) :
    (∀ id c2, genLoop c = .ok (some (id, c2)) → iterLoop c = (.ok id, c2)) ∧
    ((genLoop c = .ok none ∨ ∃ e, genLoop c = .error e) →
      ∃ e, (iterLoop c).1 = .error e) :=
  loops_agree_aux (1000000000 - c).toNat c le_rfl

/-- Pulling from a generator whose body has started is exactly the scan
loop, with the resumption cursor stored back into the state. -/
theorem IdGenerator_next_started (c : Int) :
    IdGenerator.next ⟨true, c⟩ =
      match genLoop c with
      | .error e => .error e
      | .ok none => .ok none
      | .ok (some (id, c2)) => .ok (some (id, ⟨true, c2⟩)) := by
  rw [IdGenerator.next]
  simp

/-- The iterator ids and the generator ids coincide once the generator body
has started, from equal cursors. -/
theorem advanceK_eq_pullK_started : ∀ k : Nat, ∀ c : Int,
    advanceK k ⟨c⟩ = pullK k ⟨true, c⟩ := by
  intro k
  induction k with
  | zero => intro c; rfl
  | succ k ih =>
    intro c
    rw [advanceK, pullK, IdGenerator_next_started]
    cases hg : genLoop c with
    | error e =>
      have hi := (loops_agree c).2 (Or.inr ⟨e, hg⟩)
      obtain ⟨e2, hi⟩ := hi
      rw [IDIterator.next]
      rcases hloop : iterLoop c with ⟨r, c2⟩
      rw [hloop] at hi
      simp only at hi
      subst hi
      rfl
    | ok o =>
      cases o with
      | none =>
        have hi := (loops_agree c).2 (Or.inl hg)
        obtain ⟨e2, hi⟩ := hi
        rw [IDIterator.next]
        rcases hloop : iterLoop c with ⟨r, c2⟩
        rw [hloop] at hi
        simp only at hi
        subst hi
        rfl
      | some p =>
        rcases p with ⟨id, c2⟩
        have hi := (loops_agree c).1 id c2 hg
        rw [IDIterator.next, hi]
        simpa using ih c2

/-- A start whose string form is not 9 characters long makes
`check_id_valid` raise. -/
theorem check_id_valid_error_of_strLen {s : Int} (h : strLen s ≠ 9) :
    check_id_valid s = .error "Invalid ID number. Please provide a 9-digit integer." := by
  rw [check_id_valid, if_pos (Or.inl h)]

/-- The iterator ids and the generator ids coincide from any start, for any
number of requests. -/
theorem advanceK_eq_pullK (s : Int) (k : Nat) :
    advanceK k (IDIterator.init s) = pullK k (id_generator s) := by
  cases k with
  | zero => rfl
  | succ k =>
    show advanceK (k + 1) ⟨s⟩ = pullK (k + 1) ⟨false, s⟩
    by_cases hlen : strLen s = 9
    · rw [pullK]
      have hnext : IdGenerator.next ⟨false, s⟩ =
          match genLoop s with
          | .error e => .error e
          | .ok none => .ok none
          | .ok (some (id, c2)) => .ok (some (id, ⟨true, c2⟩)) := by
        rw [IdGenerator.next]
        simp [hlen]
      rw [hnext, advanceK]
      cases hg : genLoop s with
      | error e =>
        obtain ⟨e2, hi⟩ := (loops_agree s).2 (Or.inr ⟨e, hg⟩)
        rw [IDIterator.next]
        rcases hloop : iterLoop s with ⟨r, c2⟩
        rw [hloop] at hi
        simp only at hi
        subst hi
        rfl
      | ok o =>
        cases o with
        | none =>
          obtain ⟨e2, hi⟩ := (loops_agree s).2 (Or.inl hg)
          rw [IDIterator.next]
          rcases hloop : iterLoop s with ⟨r, c2⟩
          rw [hloop] at hi
          simp only at hi
          subst hi
          rfl
        | some p =>
          rcases p with ⟨id, c2⟩
          have hi := (loops_agree s).1 id c2 hg
          rw [IDIterator.next, hi]
          simpa using advanceK_eq_pullK_started k c2
    · have hnext : IdGenerator.next ⟨false, s⟩ =
          .error "Invalid starting ID number. Please provide a 9-digit integer." := by
        rw [IdGenerator.next]
        simp [hlen]
      have hcv := check_id_valid_error_of_strLen hlen
      rw [pullK, hnext, advanceK, IDIterator.next, iterLoop_error hcv]

theorem digits9 {n : Nat} (h1 : 100000000 ≤ n) (h2 : n < 1000000000) :
    Nat.digits 10 n = [n % 10, n / 10 % 10, n / 100 % 10, n / 1000 % 10,
      n / 10000 % 10, n / 100000 % 10, n / 1000000 % 10, n / 10000000 % 10,
      n / 100000000 % 10] := by
  have t : (1:ℕ) < 10 := by norm_num
  rw [Nat.digits_def' t (by omega : 0 < n)]
  rw [Nat.digits_def' t (by omega : 0 < n / 10)]
  rw [Nat.digits_def' t (by omega : 0 < n / 10 / 10)]
  rw [Nat.digits_def' t (by omega : 0 < n / 10 / 10 / 10)]
  rw [Nat.digits_def' t (by omega : 0 < n / 10 / 10 / 10 / 10)]
  rw [Nat.digits_def' t (by omega : 0 < n / 10 / 10 / 10 / 10 / 10)]
  rw [Nat.digits_def' t (by omega : 0 < n / 10 / 10 / 10 / 10 / 10 / 10)]
  rw [Nat.digits_def' t (by omega : 0 < n / 10 / 10 / 10 / 10 / 10 / 10 / 10)]
  rw [Nat.digits_def' t (by omega : 0 < n / 10 / 10 / 10 / 10 / 10 / 10 / 10 / 10)]
  have hz : n / 10 / 10 / 10 / 10 / 10 / 10 / 10 / 10 / 10 = 0 := by
    simp only [Nat.div_div_eq_div_mul]
    omega
  rw [hz]
  norm_num [Nat.div_div_eq_div_mul]

theorem strDigits9 {n : Nat} (h1 : 100000000 ≤ n) (h2 : n < 1000000000) :
    strDigits n = [n / 100000000 % 10, n / 10000000 % 10, n / 1000000 % 10,
      n / 100000 % 10, n / 10000 % 10, n / 1000 % 10, n / 100 % 10,
      n / 10 % 10, n % 10] := by
  rw [strDigits, if_neg (by omega), digitsAuxLE_eq_digits _ _ le_rfl, digits9 h1 h2]
  rfl

theorem enum9 (a b c d e f g h i : Nat) :
    [a, b, c, d, e, f, g, h, i].enum
      = [(0, a), (1, b), (2, c), (3, d), (4, e), (5, f), (6, g), (7, h), (8, i)] := rfl

theorem mul9 (a b c d e f g h i : Nat) :
    List.map (fun p => if (p.1 + 1) % 2 = 0 then p.2 * 2 else p.2)
      [((0:Nat), a), (1, b), (2, c), (3, d), (4, e), (5, f), (6, g), (7, h), (8, i)]
      = [a, b * 2, c, d * 2, e, f * 2, g, h * 2, i] := by
  simp only [List.map_cons, List.map_nil, Nat.reduceAdd, Nat.reduceMod]
  norm_num

theorem sum9 (x0 x1 x2 x3 x4 x5 x6 x7 x8 : Nat) :
    (List.map (fun num => if num < 10 then num else num / 10 + num % 10)
      [x0, x1, x2, x3, x4, x5, x6, x7, x8]).sum
    = (if x0 < 10 then x0 else x0 / 10 + x0 % 10) +
      ((if x1 < 10 then x1 else x1 / 10 + x1 % 10) +
      ((if x2 < 10 then x2 else x2 / 10 + x2 % 10) +
      ((if x3 < 10 then x3 else x3 / 10 + x3 % 10) +
      ((if x4 < 10 then x4 else x4 / 10 + x4 % 10) +
      ((if x5 < 10 then x5 else x5 / 10 + x5 % 10) +
      ((if x6 < 10 then x6 else x6 / 10 + x6 % 10) +
      ((if x7 < 10 then x7 else x7 / 10 + x7 % 10) +
      ((if x8 < 10 then x8 else x8 / 10 + x8 % 10) + 0)))))))) := rfl

/-- For a true 9-digit input the code's answer is the divisibility test on
`luhnSum`. -/
theorem check_id_valid_eval {m : Nat} (h1 : 100000000 ≤ m) (h2 : m < 1000000000) :
    check_id_valid (m : Int) = .ok (decide (luhnSum m % 10 = 0)) := by
  have hnum : strIsNumeric m = true := by simp [strIsNumeric]
  have hlen : strLen m = 9 := by
    have h9 : (strDigits m).length = 9 := by rw [strDigits9 h1 h2]; rfl
    simp [strLen, h9]
  rw [check_id_valid, if_neg (by simp [hlen, hnum])]
  simp only [Int.natAbs_ofNat, strDigits9 h1 h2, enum9, mul9, sum9,
    luhnSum, digitTerm, doubleTerm, Nat.add_zero]

/-- For a true 9-digit input, validity is divisibility of `luhnSum` by 10. -/
theorem check_id_valid_true_iff {m : Nat} (h1 : 100000000 ≤ m) (h2 : m < 1000000000) :
    check_id_valid (m : Int) = .ok true ↔ luhnSum m % 10 = 0 := by
  rw [check_id_valid_eval h1 h2]
  simp

/-- The last digit enters `luhnSum` undoubled: splitting it off is additive. -/
theorem luhnSum_split (P d : Nat) (hd : d < 10) :
    luhnSum (10 * P + d) = luhnSum (10 * P) + d := by
  have hdt : digitTerm d = d := by rw [digitTerm]; exact if_pos hd
  have hdt0 : digitTerm 0 = 0 := rfl
  have e0 : (10 * P + d) % 10 = d := by omega
  have e00 : (10 * P) % 10 = 0 := by omega
  have f1 : (10 * P + d) / 10 % 10 = P % 10 := by omega
  have g1 : (10 * P) / 10 % 10 = P % 10 := by omega
  have f2 : (10 * P + d) / 100 % 10 = P / 10 % 10 := by omega
  have g2 : (10 * P) / 100 % 10 = P / 10 % 10 := by omega
  have f3 : (10 * P + d) / 1000 % 10 = P / 100 % 10 := by omega
  have g3 : (10 * P) / 1000 % 10 = P / 100 % 10 := by omega
  have f4 : (10 * P + d) / 10000 % 10 = P / 1000 % 10 := by omega
  have g4 : (10 * P) / 10000 % 10 = P / 1000 % 10 := by omega
  have f5 : (10 * P + d) / 100000 % 10 = P / 10000 % 10 := by omega
  have g5 : (10 * P) / 100000 % 10 = P / 10000 % 10 := by omega
  have f6 : (10 * P + d) / 1000000 % 10 = P / 100000 % 10 := by omega
  have g6 : (10 * P) / 1000000 % 10 = P / 100000 % 10 := by omega
  have f7 : (10 * P + d) / 10000000 % 10 = P / 1000000 % 10 := by omega
  have g7 : (10 * P) / 10000000 % 10 = P / 1000000 % 10 := by omega
  have f8 : (10 * P + d) / 100000000 % 10 = P / 10000000 % 10 := by omega
  have g8 : (10 * P) / 100000000 % 10 = P / 10000000 % 10 := by omega
  rw [luhnSum, luhnSum, e0, e00, f1, g1, f2, g2, f3, g3, f4, g4, f5, g5,
    f6, g6, f7, g7, f8, g8, hdt, hdt0]
  omega

/-- In each full decade of 9-digit numbers there is exactly one choice of
last digit making the id valid. -/
theorem existsUnique_check_digit (P : Nat) (hP1 : 10000000 ≤ P) (hP2 : P < 100000000) :
    ∃! d : Nat, d < 10 ∧ check_id_valid ((10 * P + d : Nat) : Int) = .ok true := by
  have key : ∀ d : Nat, d < 10 →
      (check_id_valid ((10 * P + d : Nat) : Int) = .ok true ↔
        (luhnSum (10 * P) + d) % 10 = 0) := by
    intro d hd
    rw [check_id_valid_true_iff (by omega) (by omega), luhnSum_split P d hd]
  refine ⟨(10 - luhnSum (10 * P) % 10) % 10, ⟨by omega, ?_⟩, ?_⟩
  · rw [key _ (by omega)]
    omega
  · rintro y ⟨hy, hvy⟩
    rw [key y hy] at hvy
    omega

/-- Every 19-candidate window inside the 9-digit range contains a valid id. -/
theorem exists_valid_in_window (c : Nat) (h1 : 100000000 ≤ c) (h2 : c ≤ 999999981) :
    ∃ m, c ≤ m ∧ m ≤ c + 18 ∧ check_id_valid ((m : Nat) : Int) = .ok true := by
  obtain ⟨d, ⟨hd, hvd⟩, -⟩ := existsUnique_check_digit (c / 10) (by omega) (by omega)
  by_cases hcase : c % 10 ≤ d
  · exact ⟨10 * (c / 10) + d, by omega, by omega, hvd⟩
  · obtain ⟨d2, ⟨hd2, hvd2⟩, -⟩ := existsUnique_check_digit (c / 10 + 1) (by omega) (by omega)
    exact ⟨10 * (c / 10 + 1) + d2, by omega, by omega, hvd2⟩

/-- The verdict `specValid` unfolded to its nine positional contributions. -/
theorem specValid_red (n : Nat) : specValid n = decide
    (((if 10 ≤ n / 10 ^ 8 % 10 then n / 10 ^ 8 % 10 / 10 + n / 10 ^ 8 % 10 % 10
        else n / 10 ^ 8 % 10)
      + (if 10 ≤ 2 * (n / 10 ^ 7 % 10) then 2 * (n / 10 ^ 7 % 10) / 10 + 2 * (n / 10 ^ 7 % 10) % 10
        else 2 * (n / 10 ^ 7 % 10))
      + (if 10 ≤ n / 10 ^ 6 % 10 then n / 10 ^ 6 % 10 / 10 + n / 10 ^ 6 % 10 % 10
        else n / 10 ^ 6 % 10)
      + (if 10 ≤ 2 * (n / 10 ^ 5 % 10) then 2 * (n / 10 ^ 5 % 10) / 10 + 2 * (n / 10 ^ 5 % 10) % 10
        else 2 * (n / 10 ^ 5 % 10))
      + (if 10 ≤ n / 10 ^ 4 % 10 then n / 10 ^ 4 % 10 / 10 + n / 10 ^ 4 % 10 % 10
        else n / 10 ^ 4 % 10)
      + (if 10 ≤ 2 * (n / 10 ^ 3 % 10) then 2 * (n / 10 ^ 3 % 10) / 10 + 2 * (n / 10 ^ 3 % 10) % 10
        else 2 * (n / 10 ^ 3 % 10))
      + (if 10 ≤ n / 10 ^ 2 % 10 then n / 10 ^ 2 % 10 / 10 + n / 10 ^ 2 % 10 % 10
        else n / 10 ^ 2 % 10)
      + (if 10 ≤ 2 * (n / 10 ^ 1 % 10) then 2 * (n / 10 ^ 1 % 10) / 10 + 2 * (n / 10 ^ 1 % 10) % 10
        else 2 * (n / 10 ^ 1 % 10))
      + (if 10 ≤ n / 10 ^ 0 % 10 then n / 10 ^ 0 % 10 / 10 + n / 10 ^ 0 % 10 % 10
        else n / 10 ^ 0 % 10)) % 10 = 0) := by
  rw [specValid]
  norm_num

/-- The code tests `num < 10`, the spec text tests `10 ≤ num`: same split. -/
theorem flip_ite (v : Nat) :
    (if v < 10 then v else v / 10 + v % 10) = (if 10 ≤ v then v / 10 + v % 10 else v) := by
  rcases lt_or_ge v 10 with h | h
  · rw [if_pos h, if_neg (by omega)]
  · rw [if_neg (by omega), if_pos h]

/-- A digit is never 10 or more, so its transform is itself. -/
theorem small_ite (x y : Nat) : (if 10 ≤ x % 10 then y else x % 10) = x % 10 :=
  if_neg (by omega)

/-- One unfolding of `advanceK` through the iterator's `__next__` call. -/
theorem advanceK_step {k : Nat} {c : Int} :
    advanceK (k + 1) ⟨c⟩ =
      match iterLoop c with
      | (.ok id, c2) => id :: advanceK k ⟨c2⟩
      | (.error _, _) => [] := by
  rw [advanceK, IDIterator.next, show (⟨c⟩ : IDIterator).id_ = c from rfl]
  rcases hl : iterLoop c with ⟨r, c2⟩
  cases r <;> simp

/-- Every id the iterator emits is valid and at or after the cursor, and
the emitted list is strictly increasing. -/
theorem advanceK_props : ∀ k : Nat, ∀ c : Int,
    (∀ id ∈ advanceK k (⟨c⟩ : IDIterator), check_id_valid id = .ok true ∧ c ≤ id) ∧
    (advanceK k (⟨c⟩ : IDIterator)).Pairwise (· < ·) := by
  intro k
  induction k with
  | zero =>
    intro c
    constructor
    · intro id hid
      simp [advanceK] at hid
    · simp [advanceK]
  | succ k ih =>
    intro c
    rw [advanceK_step]
    rcases hl : iterLoop c with ⟨r, c2⟩
    cases r with
    | error e =>
      constructor
      · intro id hid
        simp at hid
      · simp
    | ok id =>
      obtain ⟨hv, hle, hc2, -⟩ := iterLoop_ok hl
      subst hc2
      have ihs := ih (id + 1)
      constructor
      · intro x hx
        simp only [List.mem_cons] at hx
        rcases hx with rfl | hx2
        · exact ⟨hv, hle⟩
        · obtain ⟨h1x, h2x⟩ := ihs.1 x hx2
          exact ⟨h1x, by omega⟩
      · rw [List.pairwise_cons]
        refine ⟨fun x hx => ?_, ihs.2⟩
        have := (ihs.1 x hx).2
        omega

/-- Bounded fuel always suffices for the iterator scan (auxiliary). -/
theorem iterLoopFuel_exists_aux : ∀ N : Nat, ∀ c : Int,
    (1000000000 - c).toNat ≤ N → ∃ f, iterLoopFuel f c = some (iterLoop c) := by
  intro N
  induction N with
  | zero =>
    intro c hm
    have herr := (check_id_valid_error_iff c).mpr (Or.inr (by omega))
    refine ⟨1, ?_⟩
    rw [iterLoop_error herr]
    show iterLoopFuel (0 + 1) c = _
    rw [iterLoopFuel, herr]
  | succ N ih =>
    intro c hm
    cases hcv : check_id_valid c with
    | error e =>
      refine ⟨1, ?_⟩
      rw [iterLoop_error hcv]
      show iterLoopFuel (0 + 1) c = _
      rw [iterLoopFuel, hcv]
    | ok b =>
      cases b with
      | true =>
        refine ⟨1, ?_⟩
        rw [iterLoop_true hcv]
        show iterLoopFuel (0 + 1) c = _
        rw [iterLoopFuel, hcv]
      | false =>
        have hb := check_id_valid_ok_bounds hcv
        obtain ⟨f, hf⟩ := ih (c + 1) (by omega)
        refine ⟨f + 1, ?_⟩
        rw [iterLoop_false hcv, iterLoopFuel, hcv]
        exact hf

/-- Bounded fuel always suffices for the generator scan (auxiliary). -/
theorem genLoopFuel_exists_aux : ∀ N : Nat, ∀ c : Int,
    (1000000000 - c).toNat ≤ N → ∃ f, genLoopFuel f c = some (genLoop c) := by
  intro N
  induction N with
  | zero =>
    intro c hm
    refine ⟨1, ?_⟩
    rw [genLoop_stop (by omega)]
    show genLoopFuel (0 + 1) c = _
    rw [genLoopFuel, if_neg (by omega)]
  | succ N ih =>
    intro c hm
    by_cases hc : c ≤ 999999999
    · cases hcv : check_id_valid c with
      | error e =>
        refine ⟨1, ?_⟩
        rw [genLoop_error hc hcv]
        show genLoopFuel (0 + 1) c = _
        rw [genLoopFuel, if_pos hc, hcv]
      | ok b =>
        cases b with
        | true =>
          refine ⟨1, ?_⟩
          rw [genLoop_true hc hcv]
          show genLoopFuel (0 + 1) c = _
          rw [genLoopFuel, if_pos hc, hcv]
        | false =>
          obtain ⟨f, hf⟩ := ih (c + 1) (by omega)
          refine ⟨f + 1, ?_⟩
          rw [genLoop_false hc hcv, genLoopFuel, if_pos hc, hcv]
          exact hf
    · refine ⟨1, ?_⟩
      rw [genLoop_stop (by omega)]
      show genLoopFuel (0 + 1) c = _
      rw [genLoopFuel, if_neg hc]

/-- C7: every integer input that is not exactly 9 decimal digits (below
100000000, including all negatives, or above 999999999) makes
`check_id_valid` raise the `ValueError` instead of returning a verdict. -/
theorem C7_invalid_input_raises (id : Int)
    (h : id < 100000000 ∨ 999999999 < id) :
    check_id_valid id = .error "Invalid ID number. Please provide a 9-digit integer." :=
  (check_id_valid_error_iff id).mpr h

/-- C7 witness: `check_id_valid` raises at 0 (too short), at -12345678
(negative, 9 characters but not numeric) and at 1000000000 (too long). -/
theorem C7_witness :
    check_id_valid 0 = .error "Invalid ID number. Please provide a 9-digit integer." ∧
    check_id_valid (-12345678) = .error "Invalid ID number. Please provide a 9-digit integer." ∧
    check_id_valid 1000000000 = .error "Invalid ID number. Please provide a 9-digit integer." :=
  ⟨C7_invalid_input_raises 0 (Or.inl (by decide)),
   C7_invalid_input_raises (-12345678) (Or.inl (by decide)),
   C7_invalid_input_raises 1000000000 (Or.inr (by decide))⟩

/-- C10: once an iterator's cursor exceeds 999999999, each call to
`__next__` raises the invalid-input `ValueError` coming from
`check_id_valid` and leaves the iterator state unchanged, so repeated calls
fail identically. -/
theorem C10_pastbound_raises_state_unchanged (it : IDIterator)
    (h : 999999999 < it.id_) :
    IDIterator.next it =
      (.error "Invalid ID number. Please provide a 9-digit integer.", it) := by
  have hcv := (check_id_valid_error_iff it.id_).mpr (Or.inr h)
  rw [IDIterator.next, iterLoop_error hcv]

/-- C10 witness: at cursor 1000000000 the call errors and the cursor stays. -/
theorem C10_witness :
    IDIterator.next ⟨1000000000⟩ =
      (.error "Invalid ID number. Please provide a 9-digit integer.", ⟨1000000000⟩) :=
  C10_pastbound_raises_state_unchanged ⟨1000000000⟩ (by decide)

/-- C4 counterexample: at the non-9-digit start 0 neither interface fails
at construction: `IDIterator.__init__` stores the cursor unchecked and
`id_generator(0)` returns a suspended generator; the `ValueError` appears
only at the first pull. -/
theorem C4_counterexample :
    IDIterator.init 0 = ⟨0⟩ ∧ id_generator 0 = ⟨false, 0⟩ ∧
      IdGenerator.next (id_generator 0) =
        .error "Invalid starting ID number. Please provide a 9-digit integer." := by
  refine ⟨rfl, rfl, ?_⟩
  rw [IdGenerator.next, if_pos ⟨rfl, by decide⟩]

/-- C4 amended: neither interface validates at construction time.
`IDIterator.__init__` accepts and stores any start; `id_generator(start)`
only builds a suspended generator, and its length-9 check runs at the
first pull, raising the `ValueError` there for any start whose string form
is not 9 characters. -/
theorem C4_amended_no_construction_validation (start : Int) :
    IDIterator.init start = ⟨start⟩ ∧ id_generator start = ⟨false, start⟩ ∧
      (strLen start ≠ 9 →
        IdGenerator.next (id_generator start) =
          .error "Invalid starting ID number. Please provide a 9-digit integer.") := by
  refine ⟨rfl, rfl, fun h => ?_⟩
  rw [IdGenerator.next, if_pos ⟨rfl, h⟩]

/-- C4 witness: instantiating the amended claim at start 0. -/
theorem C4_witness :
    IDIterator.init 0 = ⟨0⟩ ∧ id_generator 0 = ⟨false, 0⟩ ∧
      IdGenerator.next (id_generator 0) =
        .error "Invalid starting ID number. Please provide a 9-digit integer." := by
  obtain ⟨h1, h2, h3⟩ := C4_amended_no_construction_validation 0
  exact ⟨h1, h2, h3 (by decide)⟩

/-- C5: a search started at 999999999 (an invalid id): the generator
signals normal exhaustion (`StopIteration`, modelled `.ok none`), but the
iterator raises the invalid-input `ValueError` once its cursor passes
1000000000, contradicting its own docstring, which promises
`StopIteration` when no valid id can be found in range. -/
theorem C5_iterator_raises_instead_of_exhausting :
    IdGenerator.next (id_generator 999999999) = .ok none ∧
    IDIterator.next ⟨999999999⟩ =
      (.error "Invalid ID number. Please provide a 9-digit integer.", ⟨1000000000⟩) := by
  have hfalse : check_id_valid 999999999 = .ok false := rfl
  have herr : check_id_valid 1000000000 =
      .error "Invalid ID number. Please provide a 9-digit integer." := rfl
  have hgen : genLoop 999999999 = .ok none := by
    rw [genLoop_false (by decide) hfalse]
    exact genLoop_stop (by decide)
  have hiter : iterLoop 999999999 =
      (.error "Invalid ID number. Please provide a 9-digit integer.", 1000000000) := by
    rw [iterLoop_false hfalse]
    have : (999999999 : Int) + 1 = 1000000000 := by decide
    rw [this, iterLoop_error herr]
  constructor
  · rw [IdGenerator.next, if_neg (by decide)]
    rw [show (id_generator 999999999).id_number = 999999999 from rfl, hgen]
  · rw [IDIterator.next]
    rw [show (⟨999999999⟩ : IDIterator).id_ = 999999999 from rfl, hiter]

/-- C1: for every input representable as exactly 9 decimal digits,
`check_id_valid` answers true exactly when the spec's computation does:
index the digits 1..9 left to right, double the digits at even 1-based
positions, replace every resulting value that is at least 10 by the sum of
its two decimal digits, and test whether the total is divisible by 10
(`specValid`, modelled from the spec's words). -/
theorem C1_validator_matches_spec (n : Int)
    (h1 : 100000000 ≤ n) (h2 : n ≤ 999999999) :
    check_id_valid n = .ok (specValid n.toNat) := by
  obtain ⟨m, rfl⟩ : ∃ m : Nat, n = (m : Int) :=
    ⟨n.toNat, (Int.toNat_of_nonneg (by omega)).symm⟩
  have hm1 : 100000000 ≤ m := by exact_mod_cast h1
  have hm2 : m < 1000000000 := by
    have h3 : m ≤ 999999999 := by exact_mod_cast h2
    omega
  rw [check_id_valid_eval hm1 hm2, Int.toNat_natCast]
  congr 1
  rw [specValid_red, decide_eq_decide]
  simp only [luhnSum, digitTerm, doubleTerm, Nat.reducePow, Nat.div_one,
    flip_ite, small_ite, Nat.mul_comm, Nat.add_zero]
  omega

/-- C1 witness: the verdicts agree at 123456789 (invalid) and at
100000009 (valid). -/
theorem C1_witness :
    check_id_valid 123456789 = .ok (specValid (123456789 : Int).toNat) ∧
    check_id_valid 100000009 = .ok (specValid (100000009 : Int).toNat) :=
  ⟨C1_validator_matches_spec 123456789 (by decide) (by decide),
   C1_validator_matches_spec 100000009 (by decide) (by decide)⟩

/-- C2: from a valid 9-digit start, whenever the first advance of either
interface emits an id, that id is valid, it is at or after the start, no
valid id lies strictly between the start and it (so it is the smallest
valid id at or after the start), and the next scan resumes from id + 1. -/
theorem C2_first_emission_least (s : Int)
    (h1 : 100000000 ≤ s) (h2 : s ≤ 999999999) :
    (∀ (id : Int) (it2 : IDIterator), IDIterator.next ⟨s⟩ = (.ok id, it2) →
      check_id_valid id = .ok true ∧ s ≤ id ∧
        (∀ m, s ≤ m → m < id → check_id_valid m ≠ .ok true) ∧ it2 = ⟨id + 1⟩) ∧
    (∀ (id : Int) (g2 : IdGenerator),
      IdGenerator.next (id_generator s) = .ok (some (id, g2)) →
      check_id_valid id = .ok true ∧ s ≤ id ∧
        (∀ m, s ≤ m → m < id → check_id_valid m ≠ .ok true) ∧ g2 = ⟨true, id + 1⟩) := by
  have hlen : strLen s = 9 := (strLen_eq_nine (by omega)).mpr ⟨h1, h2⟩
  constructor
  · intro id it2 h
    rw [IDIterator.next, show (⟨s⟩ : IDIterator).id_ = s from rfl] at h
    rcases hl : iterLoop s with ⟨r, c2⟩
    rw [hl] at h
    simp only [Prod.mk.injEq] at h
    obtain ⟨hr, hit⟩ := h
    subst hr
    obtain ⟨hv, hle, hc2, hmin⟩ := iterLoop_ok hl
    exact ⟨hv, hle, hmin, by rw [← hit, hc2]⟩
  · intro id g2 h
    rw [IdGenerator.next, if_neg (by simp [id_generator, hlen])] at h
    rw [show (id_generator s).id_number = s from rfl] at h
    rcases hg : genLoop s with e | o
    · rw [hg] at h
      simp at h
    · rcases o with - | ⟨id2, c2⟩
      · rw [hg] at h
        simp at h
      · rw [hg] at h
        simp only [Except.ok.injEq, Option.some.injEq, Prod.mk.injEq] at h
        obtain ⟨rfl, hg2⟩ := h
        obtain ⟨hv, hle, hc2, hmin⟩ := genLoop_some hg
        exact ⟨hv, hle, hmin, by rw [← hg2, hc2]⟩

/-- C2 witness: starting at the valid id 100000009, the iterator's first
advance emits 100000009 itself and resumes from 100000010. -/
theorem C2_witness :
    check_id_valid 100000009 = .ok true ∧ (100000009 : Int) ≤ 100000009 ∧
      (∀ m : Int, 100000009 ≤ m → m < 100000009 → check_id_valid m ≠ .ok true) ∧
      (⟨100000010⟩ : IDIterator) = ⟨100000009 + 1⟩ := by
  apply (C2_first_emission_least 100000009 (by decide) (by decide)).1 100000009 ⟨100000010⟩
  rw [IDIterator.next, show (⟨100000009⟩ : IDIterator).id_ = 100000009 from rfl,
    iterLoop_true (c := 100000009) rfl]
  rfl

/-- C3: for every start and every K, the K ids produced by calling the
iterator's `__next__` from IDIterator(start) equal, element by element,
the K ids pulled from id_generator(start). -/
theorem C3_iterator_generator_agree (start : Int) (k : Nat) :
    advanceK k (IDIterator.init start) = pullK k (id_generator start) :=
  advanceK_eq_pullK start k

/-- C6: every emitted id (of either interface) satisfies the validator,
and the emitted ids are strictly increasing (hence no id is emitted
twice). -/
theorem C6_emissions_valid_strictly_increasing (start : Int) (k : Nat) :
    ((advanceK k (IDIterator.init start)).Pairwise (· < ·) ∧
      ∀ id ∈ advanceK k (IDIterator.init start), check_id_valid id = .ok true) ∧
    ((pullK k (id_generator start)).Pairwise (· < ·) ∧
      ∀ id ∈ pullK k (id_generator start), check_id_valid id = .ok true) := by
  have hadv := advanceK_props k start
  have heq := advanceK_eq_pullK start k
  refine ⟨⟨hadv.2, fun id hid => (hadv.1 id hid).1⟩, ?_⟩
  rw [show pullK k (id_generator start) = advanceK k (IDIterator.init start) from heq.symm]
  exact ⟨hadv.2, fun id hid => (hadv.1 id hid).1⟩

/-- C8: a single advance always terminates: for every cursor there is a
finite fuel after which the instrumented scan loop has already produced
the (total) loop's answer, for both interfaces. -/
theorem C8_scan_terminates (c : Int) :
    (∃ f : Nat, iterLoopFuel f c = some (iterLoop c)) ∧
    (∃ f : Nat, genLoopFuel f c = some (genLoop c)) :=
  ⟨iterLoopFuel_exists_aux (1000000000 - c).toNat c le_rfl,
   genLoopFuel_exists_aux (1000000000 - c).toNat c le_rfl⟩

/-- C9 counterexample: the ten candidates 190000001..190000010 are all
invalid, so the window [c, c+9] at the 9-digit cursor c = 190000001
contains no valid id, refuting the claimed 10-candidate bound. -/
theorem C9_counterexample :
    check_id_valid 190000001 = .ok false ∧ check_id_valid 190000002 = .ok false ∧
    check_id_valid 190000003 = .ok false ∧ check_id_valid 190000004 = .ok false ∧
    check_id_valid 190000005 = .ok false ∧ check_id_valid 190000006 = .ok false ∧
    check_id_valid 190000007 = .ok false ∧ check_id_valid 190000008 = .ok false ∧
    check_id_valid 190000009 = .ok false ∧ check_id_valid 190000010 = .ok false :=
  ⟨rfl, rfl, rfl, rfl, rfl, rfl, rfl, rfl, rfl, rfl⟩

/-- C9 amended: for every 9-digit n exactly one digit d in 0..9 makes the
id valid when the last digit of n is replaced by d; consequently every
window [c, c+18] that stays inside the 9-digit range contains at least one
valid id, so a forward search scans at most 19 candidates between
consecutive emissions while within range. -/
theorem C9_amended_check_digit_window (n : Nat)
    (hn1 : 100000000 ≤ n) (hn2 : n ≤ 999999999) :
    (∃! d : Nat, d < 10 ∧ check_id_valid ((10 * (n / 10) + d : Nat) : Int) = .ok true) ∧
    (n ≤ 999999981 →
      ∃ m : Nat, n ≤ m ∧ m ≤ n + 18 ∧ check_id_valid ((m : Nat) : Int) = .ok true) := by
  constructor
  · exact existsUnique_check_digit (n / 10) (by omega) (by omega)
  · intro h
    exact exists_valid_in_window n hn1 h

/-- C9 witness: at n = 190000001 there is exactly one valid check digit in
its decade, and a valid id within the 19-candidate window. -/
theorem C9_witness :
    (∃! d : Nat, d < 10 ∧
      check_id_valid ((10 * (190000001 / 10) + d : Nat) : Int) = .ok true) ∧
    (∃ m : Nat, 190000001 ≤ m ∧ m ≤ 190000001 + 18 ∧
      check_id_valid ((m : Nat) : Int) = .ok true) := by
  have h := C9_amended_check_digit_window 190000001 (by norm_num) (by norm_num)
  exact ⟨h.1, h.2 (by norm_num)⟩

end Campusil
